import Mathlib

/-!
Verification of the Axon controlled-execution engine and its React client.

The repository ships the React frontend (`frontend/src/services/api.ts`,
`frontend/src/contexts/ChatContext.tsx`, `frontend/src/types/index.ts`, the
hooks, and an authenticated variant of the API service); those parts are
embedded here directly from the TypeScript source.  The backend engine
(RiskPolicy, ToolCatalog, PermissionLedger, ApprovalGateway, Orchestrator) is
not part of the shipped sources; where a property is decided by that engine it
is modelled from the specification, and each such definition says so in its
doc comment.
-/

set_option autoImplicit false

namespace Axon

/-! ## Risk policy (modelled from the spec) -/

/-- Modelled from the spec: the fixed total order of risk levels,
`low < medium < high < critical` (RiskPolicy is backend code absent from the
shipped sources). -/
inductive RiskLevel where
  | low
  | medium
  | high
  | critical
  deriving DecidableEq, Repr

/-- Modelled from the spec: numeric rank realising the total order
`low < medium < high < critical`. -/
def riskRank : RiskLevel → Nat
  | .low => 0
  | .medium => 1
  | .high => 2
  | .critical => 3

/-- Modelled from the spec: pure function `permitted(requestRisk, ceilingRisk)`
testing whether a proposed action's risk is within the configured ceiling. -/
def permitted (requestRisk ceilingRisk : RiskLevel) : Bool :=
  riskRank requestRisk ≤ riskRank ceilingRisk

/-- Modelled from the spec: parsing of a risk label; an unknown or missing
label is treated as `critical` (fail closed). -/
def parseRisk (label : Option String) : RiskLevel :=
  match label with
  | some "low" => .low
  | some "medium" => .medium
  | some "high" => .high
  | some "critical" => .critical
  | _ => .critical

/-! ## Decisions and the permission ledger (modelled from the spec) -/

/-- Decision scope, `once | session | never`; the same three-valued type
appears in the shipped client (`types/index.ts`, `ApprovalDecision`). -/
inductive ApprovalDecision where
  | once
  | session
  | never
  deriving DecidableEq, Repr

/-- Modelled from the spec: a PermissionLedger entry for one action name,
one of granted-once, granted-session, blocked. -/
inductive LedgerEntry where
  | grantedOnce
  | grantedSession
  | blockedEntry
  deriving DecidableEq, Repr

/-- Modelled from the spec: the per-session PermissionLedger, a map from
action name to entry (earliest pair wins on lookup). -/
def Ledger : Type := List (String × LedgerEntry)

/-- Modelled from the spec: `check(session, actionName)`; `none` is the
spec's `Unknown`. -/
def check (l : Ledger) (name : String) : Option LedgerEntry :=
  l.lookup name

/-- Removes any entry for `name` from the ledger. -/
def eraseEntry (l : Ledger) (name : String) : Ledger :=
  l.filter (fun p => p.1 != name)

/-- Stores `e` as the unique entry for `name`. -/
def setEntry (l : Ledger) (name : String) (e : LedgerEntry) : Ledger :=
  (name, e) :: eraseEntry l name

/-- Modelled from the spec: the ledger entry written for each decision
scope. -/
def entryOf : ApprovalDecision → LedgerEntry
  | .once => .grantedOnce
  | .session => .grantedSession
  | .never => .blockedEntry

/-- Modelled from the spec: `record(session, actionName, decision)`. -/
def recordDecision (l : Ledger) (name : String) (d : ApprovalDecision) : Ledger :=
  setEntry l name (entryOf d)

/-- Modelled from the spec: consumption of a single-use `once` grant; after
being consumed by exactly one ActionRequest it reverts to `Unknown`.
`session` and `never` entries are left untouched. -/
def consumeOnce (l : Ledger) (name : String) : Ledger :=
  match check l name with
  | some .grantedOnce => eraseEntry l name
  | _ => l

/-! ## Agent profile and tool catalog entries -/

/-- Agent profile as served by the shipped API client (`api.ts`,
`getAgents`): allowed tool names (`none` means all tools allowed), the
auto-approve list, and the maximum permissible risk level. -/
structure AgentProfile where
  allowedTools : Option (List String)
  autoApproveTools : List String
  riskLevelMax : RiskLevel

/-- Modelled from the spec: an immutable ToolDefinition catalog entry; the
parameter schema is irrelevant to the claims and omitted. -/
structure ToolDefinition where
  name : String
  risk : RiskLevel
  requiresApproval : Bool

/-- Whether the agent's allow-list admits the action name (a `none`
allow-list means all actions are allowed). -/
def allowedFor (a : AgentProfile) (name : String) : Bool :=
  match a.allowedTools with
  | none => true
  | some l => name ∈ l

/-! ## Authorization precedence (modelled from the spec) -/

/-- Modelled from the spec: the outcome of the authorization precedence for
one proposed action, before any Executor involvement. -/
inductive AuthOutcome where
  | blockedOutcome
  | autoApproved
  | ledgerGrant (consumed : Bool)
  | ledgerDeny
  | ask
  deriving DecidableEq, Repr

/-- Modelled from the spec: the authorization precedence of §4.6 step 4(b):
(i) action disallowed for the agent (not in the allow-list, or its risk
exceeds the agent's ceiling) → blocked; (ii) auto-approve list membership or
`requiresApproval = false` → authorized without the gateway; (iii) a standing
`session` or usable `once` ledger decision → authorized (a standing `never`
denies); (iv) otherwise register with the ApprovalGateway and suspend. -/
def authorize (a : AgentProfile) (tool : ToolDefinition) (l : Ledger) : AuthOutcome :=
  if ¬ allowedFor a tool.name ∨ ¬ permitted tool.risk a.riskLevelMax then
    .blockedOutcome
  else if tool.name ∈ a.autoApproveTools ∨ ¬ tool.requiresApproval then
    .autoApproved
  else
    match check l tool.name with
    | some .grantedSession => .ledgerGrant false
    | some .grantedOnce => .ledgerGrant true
    | some .blockedEntry => .ledgerDeny
    | none => .ask

/-! ## ActionRequest lifecycle (modelled from the spec) -/

/-- ActionRequest lifecycle states; one AuditRecord is appended per state
transition, so the per-request audit sequence is a list of these. -/
inductive ReqState where
  | requested
  | blocked
  | authorized
  | rejected
  | executed
  | failed
  deriving DecidableEq, Repr

/-- Terminal ActionRequest states. -/
def isTerminal : ReqState → Bool
  | .blocked => true
  | .rejected => true
  | .executed => true
  | .failed => true
  | _ => false

/-- Legal single transitions of the ActionRequest state machine
`requested → (blocked | authorized | rejected) → (executed | failed)`. -/
def legalStep : ReqState → ReqState → Bool
  | .requested, .blocked => true
  | .requested, .authorized => true
  | .requested, .rejected => true
  | .authorized, .executed => true
  | .authorized, .failed => true
  | _, _ => false

/-- Result of processing one proposed action: the audit record sequence for
the ActionRequest, whether the Executor was invoked, the updated ledger, and
the stream event tags emitted for this action. -/
structure ActionOutcome where
  records : List ReqState
  executorCalled : Bool
  ledger : Ledger
  events : List String

/-- Modelled from the spec: processing of one proposed action by the
Orchestrator (§4.6 step 4).  `execOk` is the Executor's outcome when it is
invoked; `resolution` is the decision delivered through the ApprovalGateway
for a suspended request, `none` standing for timeout or cancellation. -/
def processAction (a : AgentProfile) (tool : ToolDefinition) (l : Ledger)
    (execOk : Bool) (resolution : Option ApprovalDecision) : ActionOutcome :=
  let execRecords : List ReqState := if execOk then [.executed] else [.failed]
  let execEvents : List String := if execOk then ["tool_result"] else ["tool_error"]
  match authorize a tool l with
  | .blockedOutcome =>
      ⟨[.requested, .blocked], false, l, ["tool_blocked"]⟩
  | .autoApproved =>
      ⟨[.requested, .authorized] ++ execRecords, true, l, execEvents⟩
  | .ledgerGrant consumed =>
      ⟨[.requested, .authorized] ++ execRecords, true,
        (if consumed then consumeOnce l tool.name else l), execEvents⟩
  | .ledgerDeny =>
      ⟨[.requested, .rejected], false, l, ["tool_rejected"]⟩
  | .ask =>
      match resolution with
      | none =>
          ⟨[.requested, .rejected], false, l, ["tool_request", "tool_error"]⟩
      | some .never =>
          ⟨[.requested, .rejected], false, recordDecision l tool.name .never,
            ["tool_request", "tool_rejected"]⟩
      | some .once =>
          ⟨[.requested, .authorized] ++ execRecords, true,
            consumeOnce (recordDecision l tool.name .once) tool.name,
            "tool_request" :: execEvents⟩
      | some .session =>
          ⟨[.requested, .authorized] ++ execRecords, true,
            recordDecision l tool.name .session, "tool_request" :: execEvents⟩

/-! ## ApprovalGateway (modelled from the spec) -/

/-- Modelled from the spec: the state of one gateway slot, a single-resolution
rendezvous entry for a registered request id. -/
inductive SlotState where
  | pending
  | resolved (d : ApprovalDecision)
  deriving DecidableEq, Repr

/-- Modelled from the spec: the ApprovalGateway slot table, keyed by request
id (earliest pair wins on lookup). -/
def Gateway : Type := List (String × SlotState)

/-- Looks up the slot registered under a request id. -/
def slotOf (g : Gateway) (rid : String) : Option SlotState :=
  g.lookup rid

/-- Removes the slot registered under a request id. -/
def removeSlot (g : Gateway) (rid : String) : Gateway :=
  g.filter (fun p => p.1 != rid)

/-- Modelled from the spec: `register(requestId)` creates a single-resolution
slot and fails with `DuplicateRequest` when the id already exists. -/
def register (g : Gateway) (rid : String) : Except String Gateway :=
  match slotOf g rid with
  | some _ => .error "DuplicateRequest"
  | none => .ok ((rid, .pending) :: g)

/-- Outcome of a decision submission, per the spec's external interface:
success, `NotFound` for an unknown or expired id, `AlreadyResolved` when the
id was already resolved. -/
inductive ResolveResult where
  | ok
  | notFound
  | alreadyResolved
  deriving DecidableEq, Repr

/-- Modelled from the spec: `resolve(requestId, decision)`; resolving twice is
rejected, not overwritten. -/
def resolve (g : Gateway) (rid : String) (d : ApprovalDecision) :
    ResolveResult × Gateway :=
  match slotOf g rid with
  | none => (.notFound, g)
  | some (.resolved _) => (.alreadyResolved, g)
  | some .pending => (.ok, (rid, .resolved d) :: removeSlot g rid)

/-- Outcome of `await(waitable, timeout)` for the suspended execution. -/
inductive AwaitResult where
  | decision (d : ApprovalDecision)
  | timedOut
  | cancelled
  deriving DecidableEq, Repr

/-- Modelled from the spec: `await(waitable, timeout)` for a registered
request id.  `arrival` is the resolution delivered within the timeout window,
`none` when no resolution arrives in time; in either case the slot is
removed. -/
def awaitOn (g : Gateway) (rid : String) (arrival : Option ApprovalDecision) :
    AwaitResult × Gateway :=
  match arrival with
  | some d => (.decision d, removeSlot g rid)
  | none => (.timedOut, removeSlot g rid)

/-- Modelled from the spec: the state the suspended ActionRequest is marked
with after `await` returns; a timeout is an implicit never-for-this-request,
so the specific ActionRequest is marked `rejected`, not `blocked`. -/
def stateAfterAwait : AwaitResult → ReqState
  | .decision .never => .rejected
  | .decision _ => .authorized
  | .timedOut => .rejected
  | .cancelled => .rejected

/-- Modelled from the spec: ledger update performed after `await` returns; a
timeout or cancellation records nothing, so the action name is not blocked
for the session. -/
def ledgerAfterAwait (l : Ledger) (name : String) : AwaitResult → Ledger
  | .decision d => recordDecision l name d
  | .timedOut => l
  | .cancelled => l

/-! ## Live event stream (modelled from the spec) -/

/-- Modelled from the spec: one event of the live per-turn stream (§6); the
Orchestrator emitting these is backend code absent from the shipped sources.
The shipped client consumes them in `ChatContext.sendMessage` and types them
loosely in `streamAgentMessage`. -/
inductive StreamEvent where
  | text (content : String)
  | toolRequest (requestId tool : String) (params : List (String × String))
      (riskLevel : RiskLevel) (description : String)
  | toolResult (tool result : String) (elapsedMs : Nat)
  | toolRejected (tool : String)
  | toolBlocked (tool : String)
  | toolError (tool error : String)
  | done (sessionId : String)
  | error (message : String)

/-- Discriminator tag carried by a stream event, as consumed by the client's
`switch (event.type)`. -/
def eventTag : StreamEvent → String
  | .text _ => "text"
  | .toolRequest _ _ _ _ _ => "tool_request"
  | .toolResult _ _ _ => "tool_result"
  | .toolRejected _ => "tool_rejected"
  | .toolBlocked _ => "tool_blocked"
  | .toolError _ _ => "tool_error"
  | .done _ => "done"
  | .error _ => "error"

/-- The eight stream event tags of the spec's external interface. -/
def streamTags : List String :=
  ["text", "tool_request", "tool_result", "tool_rejected", "tool_blocked",
   "tool_error", "done", "error"]

/-- Payload of a `tool_request` event: request id, tool name, parameters,
risk level, human-readable description; `none` on every other event. -/
def toolRequestPayload (e : StreamEvent) :
    Option (String × String × List (String × String) × RiskLevel × String) :=
  match e with
  | .toolRequest rid tool params risk desc => some (rid, tool, params, risk, desc)
  | _ => none

/-! ## Client message model (`types/index.ts`, `ChatContext.tsx`) -/

/-- Tool message status from `types/index.ts` (`ToolInfo.status`). -/
inductive ToolStatus where
  | pending
  | approved
  | rejectedStatus
  | executedStatus
  | failedStatus
  deriving DecidableEq, Repr

/-- Tool info attached to a tool message (`types/index.ts`, `ToolInfo`). -/
structure ToolInfo where
  name : String
  status : ToolStatus
  result : Option String
  error : Option String
  deriving DecidableEq, Repr

/-- Message role from `types/index.ts` (`Message.role`). -/
inductive Role where
  | user
  | assistant
  | system
  | tool
  deriving DecidableEq, Repr

/-- Chat message from `types/index.ts` (`Message`); the timestamp is
irrelevant to the claims and omitted. -/
structure Msg where
  id : String
  role : Role
  content : String
  toolInfo : Option ToolInfo
  deriving DecidableEq, Repr

/-- Guard shared by the `tool_result`, `tool_rejected` and `tool_blocked`
handlers in `ChatContext.sendMessage`: the message is a tool message for this
tool that is still pending. -/
def matchesPendingTool (tool : String) (m : Msg) : Bool :=
  m.role == .tool &&
    (match m.toolInfo with
     | some ti => ti.name == tool && ti.status == .pending
     | none => false)

/-- Per-message update of the `tool_result` handler in
`ChatContext.sendMessage` (lines 89-105): a pending tool message for this
tool becomes `executed` and receives the result; every other message is
returned unchanged. -/
def toolResultStep (tool result : String) (m : Msg) : Msg :=
  if matchesPendingTool tool m then
    match m.toolInfo with
    | some ti =>
        { m with content := result,
                 toolInfo := some { ti with status := .executedStatus,
                                            result := some result } }
    | none => m
  else m

/-- Per-message update of the `tool_rejected` handler in
`ChatContext.sendMessage` (lines 107-117): a pending tool message for this
tool becomes `rejected`; every other message is returned unchanged. -/
def toolRejectedStep (tool : String) (m : Msg) : Msg :=
  if matchesPendingTool tool m then
    match m.toolInfo with
    | some ti => { m with toolInfo := some { ti with status := .rejectedStatus } }
    | none => m
  else m

/-- Per-message update of the `tool_blocked` handler in
`ChatContext.sendMessage` (lines 119-129), identical to the `tool_rejected`
update. -/
def toolBlockedStep (tool : String) (m : Msg) : Msg :=
  toolRejectedStep tool m

/-- Risk level shown by the approval prompt, from `ChatContext.sendMessage`
line 84: `(event.risk_level as 'low' | 'medium' | 'high' | 'critical') ||
'medium'` — a missing or empty label falls back to `'medium'`, any other
string is passed through. -/
def promptRiskLevel (riskLabel : Option String) : String :=
  match riskLabel with
  | none => "medium"
  | some s => if s.isEmpty then "medium" else s

/-! ## Client approval actions (`ChatContext.tsx`) -/

/-- Pending approval held by the chat context (`ChatContext.tsx` line 32,
`ToolApprovalRequest & \x7b approval_id?: string \x7d`); only the fields the
claims mention are kept. -/
structure PendingApproval where
  tool : String
  approvalId : Option String
  deriving DecidableEq, Repr

/-- Chat context state touched by `approveToolCall` and `rejectToolCall`:
the message list and the pending approval. -/
structure ChatSt where
  msgs : List Msg
  pending : Option PendingApproval
  deriving DecidableEq, Repr

/-- Truthiness of `pendingApproval?.approval_id` in JavaScript: false when
the pending approval is null, its `approval_id` is undefined, or it is the
empty string. -/
def hasApprovalId (p : Option PendingApproval) : Bool :=
  match p with
  | none => false
  | some pa =>
    match pa.approvalId with
    | none => false
    | some s => !s.isEmpty

/-- Per-message update applied by `approveToolCall` on success
(`ChatContext.tsx` lines 189-197): a pending tool message for this tool
becomes `approved`. -/
def approvedStep (tool : String) (m : Msg) : Msg :=
  if matchesPendingTool tool m then
    match m.toolInfo with
    | some ti => { m with toolInfo := some { ti with status := .approved } }
    | none => m
  else m

/-- Approval scope offered by the client (`ChatContext.tsx` line 183); the
rejection path sends `never` separately. -/
inductive ApproveScope where
  | onceScope
  | sessionScope
  deriving DecidableEq, Repr

/-- Embedding of `ChatContext.approveToolCall` (lines 183-203).  `apiOk` says
whether `api.approveAgentTool` succeeded; the second component counts network
requests made. -/
def approveToolCall (apiOk : Bool) (_scope : ApproveScope) (st : ChatSt) :
    ChatSt × Nat :=
  match st.pending with
  | none => (st, 0)
  | some pa =>
    match pa.approvalId with
    | none => (st, 0)
    | some id =>
      if id.isEmpty then (st, 0)
      else if apiOk then
        ({ msgs := st.msgs.map (approvedStep pa.tool), pending := none }, 1)
      else
        ({ st with pending := none }, 1)

/-- Embedding of `ChatContext.rejectToolCall` (lines 205-228).  The message
update runs after the `catch`, so it happens whether or not the network call
threw; the second component counts network requests made. -/
def rejectToolCall (_apiOk : Bool) (st : ChatSt) : ChatSt × Nat :=
  match st.pending with
  | none => ({ st with pending := none }, 0)
  | some pa =>
    match pa.approvalId with
    | none => ({ st with pending := none }, 0)
    | some id =>
      if id.isEmpty then ({ st with pending := none }, 0)
      else
        ({ msgs := st.msgs.map (toolRejectedStep pa.tool), pending := none }, 1)

/-! ## Decision submission client (`api.ts`, `approveAgentTool`) -/

/-- Wire spelling of a decision, as interpolated into the approval URL. -/
def decisionStr : ApprovalDecision → String
  | .once => "once"
  | .session => "session"
  | .never => "never"

/-- Request issued by `api.approveAgentTool` (`api.ts` lines 435-446): a POST
to `/api/v1/chat/approve/\x7bapprovalId\x7d?decision=\x7bdecision\x7d`. -/
def approveAgentToolUrl (approvalId : String) (d : ApprovalDecision) : String :=
  "/api/v1/chat/approve/" ++ approvalId ++ "?decision=" ++ decisionStr d

/-- Embedding of `api.approveAgentTool`: throws (returns `.error`) on every
non-ok response, succeeds otherwise. -/
def approveAgentTool (respOk : Bool) (approvalId : String)
    (d : ApprovalDecision) : Except String Unit :=
  if respOk then .ok () else .error ("HTTP error! status for " ++ approveAgentToolUrl approvalId d)

/-! ## Authenticated fetch with 401 refresh (unnamed API service) -/

/-- Stored token pair (`types`, `AuthTokens`); `token_type` and `user` are
irrelevant to the claims and omitted. -/
structure AuthTokens where
  access : String
  refresh : String
  deriving DecidableEq, Repr

/-- Behaviour of the `/auth/refresh` endpoint for one attempt: `none` means
the fetch threw, `some none` a non-ok response, `some (some t)` an ok
response carrying new tokens `t`. -/
def RefreshResp : Type := Option (Option AuthTokens)

/-- Embedding of `tryRefresh` (unnamed API service, lines 50-71): with no
stored tokens or a falsy refresh token it returns false without any network
call and without touching storage; a thrown or non-ok refresh clears the
stored tokens; an ok refresh stores the new tokens.  Returns (succeeded,
stored tokens afterwards, number of refresh network calls). -/
def tryRefresh (resp : RefreshResp) (tokens : Option AuthTokens) :
    Bool × Option AuthTokens × Nat :=
  match tokens with
  | none => (false, none, 0)
  | some t =>
    if t.refresh.isEmpty then (false, some t, 0)
    else
      match resp with
      | none => (false, none, 1)
      | some none => (false, none, 1)
      | some (some nt) => (true, some nt, 1)

/-- World of one `authFetch` call: the status of the initial response, the
refresh endpoint's behaviour, and the status of the retried response. -/
structure AuthWorld where
  firstStatus : Nat
  refreshResp : RefreshResp
  retryStatus : Nat

/-- Result of one `authFetch` call: the status returned to the caller, the
stored tokens afterwards, the number of fetches of the requested resource,
and the number of refresh network calls. -/
structure AuthResult where
  status : Nat
  tokens : Option AuthTokens
  requestCount : Nat
  refreshCount : Nat
  deriving DecidableEq, Repr

/-- Embedding of `authFetch` (unnamed API service, lines 73-107): a non-401
response is returned as is; on a 401 a refresh is attempted once and the
request retried once only when the refresh succeeded, otherwise the original
401 response is returned. -/
def authFetch (w : AuthWorld) (tokens : Option AuthTokens) : AuthResult :=
  if w.firstStatus ≠ 401 then ⟨w.firstStatus, tokens, 1, 0⟩
  else
    match tryRefresh w.refreshResp tokens with
    | (true, t1, rc) => ⟨w.retryStatus, t1, 2, rc⟩
    | (false, t1, rc) => ⟨w.firstStatus, t1, 1, rc⟩

/-- Embedding of the `refreshPromise` deduplication (lines 88-93): a caller
seeing a 401 reuses the in-flight refresh when one exists and starts a new
one otherwise.  Returns (refresh outcome, slot afterwards, stored tokens
afterwards, refresh network calls made by this caller). -/
def sharedRefresh (slot : Option Bool) (resp : RefreshResp)
    (tokens : Option AuthTokens) : Bool × Option Bool × Option AuthTokens × Nat :=
  match slot with
  | some r => (r, some r, tokens, 0)
  | none =>
    match tryRefresh resp tokens with
    | (ok, t1, n) => (ok, some ok, t1, n)

/-! ## Server-sent event parsing (`api.ts`, `streamAgentMessage`) -/

/-- Splits a character stream at newlines the way the streaming loop does
(`buffer.split('\n')` followed by `buffer = lines.pop() || ''`): the first
component is the complete lines seen so far, the second the trailing
buffer. -/
def splitNl : List Char → List (List Char) × List Char
  | [] => ([], [])
  | c :: cs =>
    let r := splitNl cs
    if c = '\n' then ([] :: r.1, r.2)
    else
      match r.1 with
      | [] => ([], c :: r.2)
      | l :: rest => ((c :: l) :: rest, r.2)

/-- Joins a leading partial segment onto a later split: the buffer left by an
earlier chunk is prepended to the first line (or buffer) produced by the
text that follows. -/
def glueSplit (ba : List Char) (p : List (List Char) × List Char) :
    List (List Char) × List Char :=
  match p.1 with
  | [] => ([], ba ++ p.2)
  | l :: rest => ((ba ++ l) :: rest, p.2)

/-- The marker tested by `line.startsWith('data: ')`. -/
def dataMarker : List Char := "data: ".toList

/-- Processing of one complete line (`api.ts` lines 419-428): a line starting
with `data: ` has its remainder parsed, a parse failure is swallowed, any
other line is ignored.  `parse` abstracts `JSON.parse`, returning `none` for
malformed input instead of throwing. -/
def dataLine {E : Type} (parse : List Char → Option E) (l : List Char) : Option E :=
  if l.take 6 = dataMarker then parse (l.drop 6) else none

/-- One iteration of the read loop (`api.ts` lines 411-429): append the chunk
to the buffer, split off the complete lines, emit the events parsed from the
data lines, and keep the trailing partial line as the new buffer. -/
def feedChunk {E : Type} (parse : List Char → Option E)
    (st : List Char × List E) (chunk : List Char) : List Char × List E :=
  match splitNl (st.1 ++ chunk) with
  | (ls, buf) => (buf, st.2 ++ ls.filterMap (dataLine parse))

/-- Events delivered to the callback over a whole chunk sequence. -/
def runStream {E : Type} (parse : List Char → Option E)
    (chunks : List (List Char)) : List E :=
  (chunks.foldl (feedChunk parse) ([], [])).2

/-- Embedding of `streamAgentMessage`'s consumption of the response body
(`api.ts` lines 405-430): `none` models `response.body?.getReader()` being
absent, in which case the function returns with no callback invocation. -/
def streamAgentMessage {E : Type} (parse : List Char → Option E)
    (body : Option (List (List Char))) : List E :=
  match body with
  | none => []
  | some chunks => runStream parse chunks

/-! ## Helper lemmas -/

/-- Looking up a key in an association list from which every pair with that
key has been filtered out yields nothing. -/
theorem lookup_filter_self {β : Type} (l : List (String × β)) (n : String) :
    (l.filter (fun p => p.1 != n)).lookup n = none := by
  induction l with
  | nil => rfl
  | cons p t ih =>
    by_cases h : p.1 = n
    · have hf : (p.1 != n) = false := by simp [h]
      rw [List.filter_cons, hf]
      simpa using ih
    · have hf : (p.1 != n) = true := by simp [h]
      have hk : (n == p.1) = false := by
        rw [beq_eq_false_iff_ne]
        exact fun hn => h hn.symm
      rw [List.filter_cons, hf]
      simp only [List.lookup, hk]
      exact ih

/-- Checking the ledger right after an entry was stored finds that entry. -/
theorem check_setEntry_self (l : Ledger) (n : String) (e : LedgerEntry) :
    check (setEntry l n e) n = some e := by
  simp [check, setEntry, List.lookup]

/-- Checking the ledger after erasing an action name yields `Unknown`. -/
theorem check_eraseEntry_self (l : Ledger) (n : String) :
    check (eraseEntry l n) n = none :=
  lookup_filter_self l n

/-- C1: for every proposed action in every session, if the action's risk level
exceeds the agent's configured maximum risk level under the total order
`low < medium < high < critical`, authorization evaluates to blocked, the
resulting ActionRequest's audit sequence ends in the `blocked` state and the
Executor is never invoked for it — for every ledger state (hence regardless
of any standing `session` or unconsumed `once` grant) and for every agent
profile with that ceiling (hence regardless of the auto-approve list). -/
theorem risk_ceiling_blocks (a : AgentProfile) (tool : ToolDefinition)
    (l : Ledger) (execOk : Bool) (resolution : Option ApprovalDecision)
    (h : permitted tool.risk a.riskLevelMax = false) :
    authorize a tool l = .blockedOutcome ∧
    (processAction a tool l execOk resolution).records = [.requested, .blocked] ∧
    (processAction a tool l execOk resolution).records.getLast? = some .blocked ∧
    (processAction a tool l execOk resolution).executorCalled = false ∧
    (processAction a tool l execOk resolution).ledger = l := by
  have hauth : authorize a tool l = .blockedOutcome := by
    unfold authorize
    simp [h]
  refine ⟨hauth, ?_, ?_, ?_, ?_⟩ <;> simp [processAction, hauth]

/-- Witness for C1 at a concrete agent, tool and ledger: a `critical`-risk
tool under a `medium` ceiling is blocked even though the ledger holds a
standing session grant and the tool is on the auto-approve list. -/
theorem risk_ceiling_blocks_witness :
    authorize ⟨none, ["sh"], .medium⟩ ⟨"sh", .critical, true⟩
        [("sh", .grantedSession)] = .blockedOutcome ∧
    (processAction ⟨none, ["sh"], .medium⟩ ⟨"sh", .critical, true⟩
        [("sh", .grantedSession)] true none).executorCalled = false := by
  have h := risk_ceiling_blocks ⟨none, ["sh"], .medium⟩ ⟨"sh", .critical, true⟩
    [("sh", .grantedSession)] true none (by decide)
  exact ⟨h.1, h.2.2.2.1⟩

/-- C2: a `once` decision recorded for an action name authorizes exactly one
ActionRequest: consuming it reverts the ledger to `Unknown` for that name,
`session` and `never` decisions survive consumption, and after a proposal
consumed the `once` grant a second identical proposal is no longer authorized
from the ledger — authorization evaluates to `ask`, requiring a fresh
decision. -/
theorem once_grant_single_use :
    (∀ (l : Ledger) (n : String),
        check (consumeOnce (recordDecision l n .once) n) n = none) ∧
    (∀ (l : Ledger) (n : String),
        check (consumeOnce (recordDecision l n .session) n) n =
          some .grantedSession) ∧
    (∀ (l : Ledger) (n : String),
        check (consumeOnce (recordDecision l n .never) n) n =
          some .blockedEntry) ∧
    (∀ (a : AgentProfile) (tool : ToolDefinition) (l : Ledger)
        (execOk : Bool) (resolution : Option ApprovalDecision),
        allowedFor a tool.name = true →
        permitted tool.risk a.riskLevelMax = true →
        tool.name ∉ a.autoApproveTools →
        tool.requiresApproval = true →
        authorize a tool (recordDecision l tool.name .once) =
          .ledgerGrant true ∧
        (processAction a tool (recordDecision l tool.name .once)
            execOk resolution).executorCalled = true ∧
        check (processAction a tool (recordDecision l tool.name .once)
            execOk resolution).ledger tool.name = none ∧
        authorize a tool (processAction a tool
            (recordDecision l tool.name .once) execOk resolution).ledger =
          .ask) := by
  have hconsume : ∀ (l : Ledger) (n : String),
      consumeOnce (recordDecision l n .once) n = eraseEntry (recordDecision l n .once) n := by
    intro l n
    unfold consumeOnce
    rw [show check (recordDecision l n .once) n = some .grantedOnce from
      check_setEntry_self l n .grantedOnce]
  refine ⟨?_, ?_, ?_, ?_⟩
  · intro l n
    rw [hconsume]
    exact check_eraseEntry_self _ n
  · intro l n
    unfold consumeOnce
    rw [show check (recordDecision l n .session) n = some .grantedSession from
      check_setEntry_self l n .grantedSession]
    exact check_setEntry_self l n .grantedSession
  · intro l n
    unfold consumeOnce
    rw [show check (recordDecision l n .never) n = some .blockedEntry from
      check_setEntry_self l n .blockedEntry]
    exact check_setEntry_self l n .blockedEntry
  · intro a tool l execOk resolution hallow hperm hauto hreq
    have hcheck : check (recordDecision l tool.name .once) tool.name =
        some .grantedOnce := check_setEntry_self l tool.name .grantedOnce
    have hauth : authorize a tool (recordDecision l tool.name .once) =
        .ledgerGrant true := by
      unfold authorize
      simp [hallow, hperm, hauto, hreq, hcheck]
    have hledger : (processAction a tool (recordDecision l tool.name .once)
        execOk resolution).ledger =
        consumeOnce (recordDecision l tool.name .once) tool.name := by
      simp [processAction, hauth]
    have hnone : check (processAction a tool (recordDecision l tool.name .once)
        execOk resolution).ledger tool.name = none := by
      rw [hledger, hconsume]
      exact check_eraseEntry_self _ tool.name
    refine ⟨hauth, ?_, hnone, ?_⟩
    · simp [processAction, hauth]
    · unfold authorize
      simp [hallow, hperm, hauto, hreq, hnone]

/-- Witness for C2 at a concrete session: the `shell_execute` tool, allowed
at ceiling `high`, with a freshly recorded `once` grant on an otherwise empty
ledger; the first proposal is authorized from the ledger, consumes the grant,
and the second identical proposal must ask again. -/
theorem once_grant_single_use_witness :
    check (consumeOnce (recordDecision [] "shell_execute" .once)
        "shell_execute") "shell_execute" = none ∧
    authorize ⟨some ["shell_execute"], [], .high⟩ ⟨"shell_execute", .high, true⟩
        (recordDecision [] "shell_execute" .once) = .ledgerGrant true ∧
    authorize ⟨some ["shell_execute"], [], .high⟩ ⟨"shell_execute", .high, true⟩
        (processAction ⟨some ["shell_execute"], [], .high⟩
          ⟨"shell_execute", .high, true⟩
          (recordDecision [] "shell_execute" .once) true none).ledger = .ask := by
  have h4 := once_grant_single_use.2.2.2 ⟨some ["shell_execute"], [], .high⟩
    ⟨"shell_execute", .high, true⟩ [] true none (by decide) (by decide)
    (by decide) rfl
  exact ⟨once_grant_single_use.1 [] "shell_execute", h4.1, h4.2.2.2⟩

/-- C3: for every ActionRequest the audit record sequence produced by
processing it is monotonic with respect to the state machine
`requested → (blocked | authorized | rejected) → (executed | failed)`: it
starts at `requested`, every consecutive pair is a legal transition, and it
contains at most one terminal record.  On the client, a tool message that has
already left the `pending` status is never transitioned again by a later
`tool_result`, `tool_rejected` or `tool_blocked` stream event. -/
theorem audit_monotonic :
    (∀ (a : AgentProfile) (tool : ToolDefinition) (l : Ledger)
        (execOk : Bool) (resolution : Option ApprovalDecision),
        ((processAction a tool l execOk resolution).records.head? =
          some .requested) ∧
        List.Chain' (fun x y => legalStep x y = true)
          (processAction a tool l execOk resolution).records ∧
        ((processAction a tool l execOk resolution).records.filter
          (fun s => isTerminal s)).length ≤ 1) ∧
    (∀ (tool result : String) (m : Msg),
        (∀ ti, m.toolInfo = some ti → ti.status ≠ .pending) →
        toolResultStep tool result m = m ∧
        toolRejectedStep tool m = m ∧
        toolBlockedStep tool m = m) := by
  constructor
  · intro a tool l execOk resolution
    rcases h : authorize a tool l with _ | _ | consumed | _ | _ <;>
      rcases execOk with _ | _ <;>
      rcases resolution with _ | d <;>
      first
        | (simp [processAction, h]; decide)
        | (rcases d with _ | _ | _ <;> (simp [processAction, h]; decide))
  · intro tool result m hnp
    have hmatch : matchesPendingTool tool m = false := by
      unfold matchesPendingTool
      rcases hti : m.toolInfo with _ | ti
      · simp
      · have := hnp ti hti
        simp [this]
    refine ⟨?_, ?_, ?_⟩ <;>
      simp [toolResultStep, toolRejectedStep, toolBlockedStep, hmatch]

/-- Witness for C3: a concrete blocked proposal yields the audit sequence
`[requested, blocked]`, and a concrete already-executed tool message is left
unchanged by all three transition handlers. -/
theorem audit_monotonic_witness :
    List.Chain' (fun x y => legalStep x y = true)
      (processAction ⟨some [], [], .low⟩ ⟨"sh", .high, true⟩ [] true
        none).records ∧
    toolResultStep "sh" "out"
      ⟨"m1", .tool, "", some ⟨"sh", .executedStatus, none, none⟩⟩ =
      ⟨"m1", .tool, "", some ⟨"sh", .executedStatus, none, none⟩⟩ := by
  refine ⟨(audit_monotonic.1 ⟨some [], [], .low⟩ ⟨"sh", .high, true⟩ [] true
    none).2.1, ?_⟩
  exact (audit_monotonic.2 "sh" "out"
    ⟨"m1", .tool, "", some ⟨"sh", .executedStatus, none, none⟩⟩
    (by intro ti hti; cases hti; decide)).1

/-- C4: when `ApprovalGateway.await` receives no resolution for a registered
request id within the timeout, it returns `TimedOut`, the pending slot is
removed from the gateway's table, the ActionRequest is marked `rejected`, and
the ledger is untouched — the action name is not blocked for the session, so
a later identical proposal must ask again rather than being auto-rejected. -/
theorem await_timeout_rejects (g : Gateway) (rid : String) (l : Ledger)
    (name : String) (_hreg : slotOf g rid = some .pending) :
    awaitOn g rid none = (.timedOut, removeSlot g rid) ∧
    slotOf (awaitOn g rid none).2 rid = none ∧
    stateAfterAwait (awaitOn g rid none).1 = .rejected ∧
    stateAfterAwait (awaitOn g rid none).1 ≠ .blocked ∧
    ledgerAfterAwait l name (awaitOn g rid none).1 = l := by
  refine ⟨rfl, ?_, rfl, ?_, rfl⟩
  · exact lookup_filter_self g rid
  · intro hc
    simp [awaitOn, stateAfterAwait] at hc

/-- Witness for C4 at a concrete gateway holding one pending slot. -/
theorem await_timeout_rejects_witness :
    slotOf (awaitOn [("r1", .pending)] "r1" none).2 "r1" = none ∧
    stateAfterAwait (awaitOn [("r1", .pending)] "r1" none).1 = .rejected := by
  have h := await_timeout_rejects [("r1", .pending)] "r1" [] "sh" (by decide)
  exact ⟨h.2.1, h.2.2.1⟩

/-- C5: decision submission is keyed by request id and accepts exactly the
three decisions `once`, `session`, `never`; `resolve` returns success when a
matching pending slot exists, `NotFound` for an unknown id, and
`AlreadyResolved` when the id was already resolved, leaving the first
decision in place.  The client's `approveAgentTool` interpolates exactly one
of the three decision spellings into the approval URL and raises an error on
every non-success response. -/
theorem resolve_once_only :
    (∀ d : ApprovalDecision, d = .once ∨ d = .session ∨ d = .never) ∧
    (∀ (g : Gateway) (rid : String) (d : ApprovalDecision),
        (slotOf g rid = none → resolve g rid d = (.notFound, g)) ∧
        (slotOf g rid = some .pending →
          (resolve g rid d).1 = .ok ∧
          slotOf (resolve g rid d).2 rid = some (.resolved d)) ∧
        (∀ d0, slotOf g rid = some (.resolved d0) →
          resolve g rid d = (.alreadyResolved, g) ∧
          slotOf (resolve g rid d).2 rid = some (.resolved d0))) ∧
    (∀ (respOk : Bool) (aid : String) (d : ApprovalDecision),
        decisionStr d ∈ ["once", "session", "never"] ∧
        approveAgentToolUrl aid d =
          "/api/v1/chat/approve/" ++ aid ++ "?decision=" ++ decisionStr d ∧
        ((∃ u, approveAgentTool respOk aid d = .ok u) ↔ respOk = true)) := by
  refine ⟨?_, ?_, ?_⟩
  · intro d
    cases d
    · exact .inl rfl
    · exact .inr (.inl rfl)
    · exact .inr (.inr rfl)
  · intro g rid d
    refine ⟨?_, ?_, ?_⟩
    · intro h
      simp [resolve, h]
    · intro h
      have h' : List.lookup rid g = some SlotState.pending := h
      constructor
      · simp [resolve, slotOf, h']
      · simp [resolve, slotOf, h', List.lookup]
    · intro d0 h
      constructor
      · simp [resolve, h]
      · simp [resolve, h]
  · intro respOk aid d
    refine ⟨?_, rfl, ?_⟩
    · cases d <;> simp [decisionStr]
    · cases respOk <;> simp [approveAgentTool]

/-- Witness for C5: resolving a concrete pending slot succeeds and stores the
decision; resolving it again is rejected and the first decision survives;
the client raises on a non-ok response. -/
theorem resolve_once_only_witness :
    (resolve [("r1", .pending)] "r1" .session).1 = .ok ∧
    resolve (resolve [("r1", .pending)] "r1" .session).2 "r1" .never =
      (.alreadyResolved, (resolve [("r1", .pending)] "r1" .session).2) ∧
    slotOf (resolve (resolve [("r1", .pending)] "r1" .session).2 "r1"
      .never).2 "r1" = some (.resolved .session) ∧
    ¬ ∃ u, approveAgentTool false "r1" .never = .ok u := by
  have first := ((resolve_once_only.2.1 [("r1", .pending)] "r1" .session).2.1
    (by decide))
  have second := ((resolve_once_only.2.1 (resolve [("r1", .pending)] "r1"
    .session).2 "r1" .never).2.2 .session first.2)
  refine ⟨first.1, second.1, second.2, ?_⟩
  intro hex
  have := (resolve_once_only.2.2 false "r1" .never).2.2.mp hex
  simp at this

/-- C6: every event of the live per-turn stream is tagged with one of exactly
the eight types `text`, `tool_request`, `tool_result`, `tool_rejected`,
`tool_blocked`, `tool_error`, `done`, `error` (the tag list has length eight
with no duplicates), and every `tool_request` event carries the request id,
tool name, parameters, risk level and human-readable description. -/
theorem stream_event_types :
    streamTags.length = 8 ∧ streamTags.Nodup ∧
    (∀ e : StreamEvent, eventTag e ∈ streamTags) ∧
    (∀ (e : StreamEvent) (rid tool : String)
        (params : List (String × String)) (risk : RiskLevel) (desc : String),
        e = .toolRequest rid tool params risk desc →
        toolRequestPayload e = some (rid, tool, params, risk, desc)) := by
  refine ⟨rfl, by decide, ?_, ?_⟩
  · intro e
    cases e <;> simp [eventTag, streamTags]
  · intro e rid tool params risk desc h
    subst h
    rfl

/-- Witness for C6 at a concrete `tool_request` event. -/
theorem stream_event_types_witness :
    toolRequestPayload (.toolRequest "r1" "sh" [("cmd", "ls")] .high "run ls") =
      some ("r1", "sh", [("cmd", "ls")], .high, "run ls") :=
  stream_event_types.2.2.2 _ "r1" "sh" [("cmd", "ls")] .high "run ls" rfl

/-- C7, counterexample: the claim states that an approval prompt for a
request with an unknown or missing risk label presents it at the `critical`
level, never at a lower one.  The client (`ChatContext.sendMessage` line 84)
defaults a missing risk label to `'medium'`, which sits strictly below
`critical` in the fixed order — so the prompt for a request with an absent
risk label is presented at a lower level than `critical`. -/
theorem prompt_risk_not_critical :
    promptRiskLevel none = "medium" ∧
    promptRiskLevel (some "") = "medium" ∧
    ("medium" : String) ≠ "critical" ∧
    riskRank (parseRisk (some "medium")) < riskRank .critical := by
  refine ⟨rfl, rfl, by decide, by decide⟩

/-- C7, amended: `permitted(requestRisk, ceilingRisk)` is a pure boolean
function realising the fixed total order `low < medium < high < critical`,
and the backend's risk parsing treats every unknown or missing label as
`critical` (fail closed), so for any ceiling below `critical` a request
carrying an unknown or absent risk label is not permitted.  The client
approval prompt, however, defaults a missing or empty risk label to
`'medium'` and passes any other unknown label through verbatim, so it does
not present such a request at the `critical` level. -/
theorem risk_fail_closed_amended :
    (∀ r c : RiskLevel, permitted r c = (riskRank r ≤ riskRank c : Bool)) ∧
    (riskRank .low < riskRank .medium ∧ riskRank .medium < riskRank .high ∧
      riskRank .high < riskRank .critical) ∧
    parseRisk none = .critical ∧
    (∀ s : String, s ∉ ["low", "medium", "high", "critical"] →
      parseRisk (some s) = .critical) ∧
    (∀ c : RiskLevel, c ≠ .critical → permitted (parseRisk none) c = false) ∧
    (∀ (s : String) (c : RiskLevel), s ∉ ["low", "medium", "high", "critical"] →
      c ≠ .critical → permitted (parseRisk (some s)) c = false) ∧
    (promptRiskLevel none = "medium" ∧ promptRiskLevel (some "") = "medium") ∧
    (∀ s : String, ¬ s.isEmpty → promptRiskLevel (some s) = s) := by
  have hparse : ∀ s : String, s ∉ ["low", "medium", "high", "critical"] →
      parseRisk (some s) = .critical := by
    intro s hs
    simp only [List.mem_cons, List.mem_singleton, not_or] at hs
    obtain ⟨h1, h2, h3, h4⟩ := hs
    simp [parseRisk, h1, h2, h3, h4]
  have hcrit : ∀ c : RiskLevel, c ≠ .critical →
      permitted .critical c = false := by
    intro c hc
    cases c <;> first | rfl | exact absurd rfl hc
  refine ⟨fun r c => rfl, by decide, rfl, hparse, ?_, ?_, ⟨rfl, rfl⟩, ?_⟩
  · intro c hc
    exact hcrit c hc
  · intro s c hs hc
    rw [hparse s hs]
    exact hcrit c hc
  · intro s hs
    simp [promptRiskLevel, hs]

/-- Witness for C7's amended theorem: an unknown label `'bogus'` is parsed as
`critical` and not permitted under a `high` ceiling, while the prompt passes
it through verbatim. -/
theorem risk_fail_closed_amended_witness :
    permitted (parseRisk (some "bogus")) .high = false ∧
    promptRiskLevel (some "bogus") = "bogus" := by
  refine ⟨risk_fail_closed_amended.2.2.2.2.2.1 "bogus" .high (by decide)
    (by decide), risk_fail_closed_amended.2.2.2.2.2.2.2 "bogus" (by decide)⟩

/-- C10: when `approveToolCall` runs while the pending approval is absent or
lacks an approval id, it makes no network request and leaves both the message
list and the pending approval unchanged; `rejectToolCall` in the same
situation makes no network request, leaves the message list unchanged and
clears the pending approval; and in every call that does make a network
request both functions clear the pending approval before returning, whether
the request succeeded or threw. -/
theorem approve_reject_frame :
    (∀ (apiOk : Bool) (scope : ApproveScope) (st : ChatSt),
        hasApprovalId st.pending = false →
        approveToolCall apiOk scope st = (st, 0) ∧
        rejectToolCall apiOk st = ({ st with pending := none }, 0)) ∧
    (∀ (apiOk : Bool) (scope : ApproveScope) (st : ChatSt),
        1 ≤ (approveToolCall apiOk scope st).2 →
        (approveToolCall apiOk scope st).1.pending = none) ∧
    (∀ (apiOk : Bool) (st : ChatSt),
        1 ≤ (rejectToolCall apiOk st).2 →
        (rejectToolCall apiOk st).1.pending = none) := by
  refine ⟨?_, ?_, ?_⟩
  · intro apiOk scope st h
    rcases hp : st.pending with _ | pa
    · simp [approveToolCall, rejectToolCall, hp]
    · rcases hid : pa.approvalId with _ | id
      · simp [approveToolCall, rejectToolCall, hp, hid]
      · have : id.isEmpty = true := by
          have := h
          rw [hp] at this
          simpa [hasApprovalId, hid] using this
        simp [approveToolCall, rejectToolCall, hp, hid, this]
  · intro apiOk scope st h
    rcases hp : st.pending with _ | pa
    · simp [approveToolCall, hp] at h
    · rcases hid : pa.approvalId with _ | id
      · simp [approveToolCall, hp, hid] at h
      · rcases he : id.isEmpty with _ | _ <;>
          rcases apiOk with _ | _ <;>
          simp [approveToolCall, hp, hid, he] at h ⊢
  · intro apiOk st h
    rcases hp : st.pending with _ | pa
    · simp [rejectToolCall, hp]
    · rcases hid : pa.approvalId with _ | id
      · simp [rejectToolCall, hp, hid]
      · rcases he : id.isEmpty with _ | _ <;>
          simp [rejectToolCall, hp, hid, he] at h ⊢

/-- Witness for C10 at concrete states: with no pending approval, both
functions are inert apart from the rejection path clearing the (already
absent) approval; with a pending approval carrying an id and a throwing API,
both still clear the pending approval after making their network request. -/
theorem approve_reject_frame_witness :
    approveToolCall true .onceScope ⟨[], none⟩ = (⟨[], none⟩, 0) ∧
    (approveToolCall false .onceScope
      ⟨[], some ⟨"sh", some "a1"⟩⟩).1.pending = none ∧
    (rejectToolCall false ⟨[], some ⟨"sh", some "a1"⟩⟩).1.pending = none := by
  refine ⟨(approve_reject_frame.1 true .onceScope ⟨[], none⟩ rfl).1, ?_, ?_⟩
  · exact approve_reject_frame.2.1 false .onceScope
      ⟨[], some ⟨"sh", some "a1"⟩⟩ (by decide)
  · exact approve_reject_frame.2.2 false
      ⟨[], some ⟨"sh", some "a1"⟩⟩ (by decide)

/-- A single `tryRefresh` makes at most one network call. -/
theorem tryRefresh_count_le_one (resp : RefreshResp) (t : Option AuthTokens) :
    (tryRefresh resp t).2.2 ≤ 1 := by
  rcases t with _ | tk
  · exact Nat.zero_le 1
  · rcases he : tk.refresh.isEmpty with _ | _ <;>
      rcases resp with _ | _ | _ <;> simp [tryRefresh, he]

/-- C8, counterexample: the claim states that when the refresh fails or the
refresh token is absent, the stored tokens are cleared.  With stored tokens
whose refresh token is the empty string (falsy, so `tryRefresh` returns
before any network call and before `clearTokens`), `authFetch` on a 401
returns the original 401 without any refresh request and leaves the stale
tokens in storage rather than clearing them. -/
theorem stale_tokens_on_empty_refresh :
    authFetch ⟨401, some (some ⟨"b", "c"⟩), 200⟩ (some ⟨"a", ""⟩) =
      ⟨401, some ⟨"a", ""⟩, 1, 0⟩ ∧
    (authFetch ⟨401, some (some ⟨"b", "c"⟩), 200⟩ (some ⟨"a", ""⟩)).tokens ≠
      none := by
  constructor
  · rfl
  · intro hc
    have h1 : ("" : String).isEmpty = true := rfl
    simp [authFetch, tryRefresh, h1] at hc

/-- C8, amended: for every request issued through `authFetch`, a non-401
response is returned unchanged with no refresh attempted; on a 401 a token
refresh network call is made at most once and the original request is
retried at most once, and only when the refresh succeeded; when a refresh
network call is made and fails, the stored tokens are cleared and the
original 401 response is returned; when no usable refresh token is stored
(no tokens, or an empty refresh token), no refresh network call is made and
the original 401 is returned with the stored tokens left unchanged; and two
401 handlers sharing the `refreshPromise` slot perform at most one refresh
network call between them, the second observing the first's outcome. -/
theorem auth_fetch_behaviour :
    (∀ (w : AuthWorld) (t : Option AuthTokens), w.firstStatus ≠ 401 →
        authFetch w t = ⟨w.firstStatus, t, 1, 0⟩) ∧
    (∀ (w : AuthWorld) (t : Option AuthTokens),
        (authFetch w t).refreshCount ≤ 1 ∧
        (authFetch w t).requestCount ≤ 2 ∧
        ((authFetch w t).requestCount = 2 →
          (tryRefresh w.refreshResp t).1 = true)) ∧
    (∀ (w : AuthWorld) (t : Option AuthTokens), w.firstStatus = 401 →
        (tryRefresh w.refreshResp t).1 = true →
        authFetch w t = ⟨w.retryStatus, (tryRefresh w.refreshResp t).2.1, 2,
          (tryRefresh w.refreshResp t).2.2⟩) ∧
    (∀ (w : AuthWorld) (t : Option AuthTokens), w.firstStatus = 401 →
        (tryRefresh w.refreshResp t).2.2 = 1 →
        (tryRefresh w.refreshResp t).1 = false →
        (authFetch w t).tokens = none ∧ (authFetch w t).status = 401 ∧
        (authFetch w t).requestCount = 1) ∧
    (∀ (w : AuthWorld) (t : Option AuthTokens), w.firstStatus = 401 →
        (t = none ∨ ∃ tk, t = some tk ∧ tk.refresh.isEmpty = true) →
        (authFetch w t).refreshCount = 0 ∧ (authFetch w t).tokens = t ∧
        (authFetch w t).status = 401) ∧
    (∀ (slot : Option Bool) (resp1 resp2 : RefreshResp)
        (t0 : Option AuthTokens),
        (sharedRefresh slot resp1 t0).2.2.2 +
          (sharedRefresh (sharedRefresh slot resp1 t0).2.1 resp2
            (sharedRefresh slot resp1 t0).2.2.1).2.2.2 ≤ 1 ∧
        (sharedRefresh (sharedRefresh slot resp1 t0).2.1 resp2
            (sharedRefresh slot resp1 t0).2.2.1).1 =
          (sharedRefresh slot resp1 t0).1) := by
  refine ⟨?_, ?_, ?_, ?_, ?_, ?_⟩
  · intro w t h
    simp [authFetch, h]
  · intro w t
    by_cases h : w.firstStatus = 401
    · rcases htr : tryRefresh w.refreshResp t with ⟨ok, t1, rc⟩
      have hrc : rc ≤ 1 := by
        have := tryRefresh_count_le_one w.refreshResp t
        rw [htr] at this
        exact this
      rcases ok with _ | _ <;>
        simp [authFetch, h, htr, hrc]
    · simp [authFetch, h]
  · intro w t h htrue
    rcases htr : tryRefresh w.refreshResp t with ⟨ok, t1, rc⟩
    rw [htr] at htrue
    simp at htrue
    subst htrue
    simp [authFetch, h, htr]
  · intro w t h hone hfalse
    rcases htr : tryRefresh w.refreshResp t with ⟨ok, t1, rc⟩
    rw [htr] at hone hfalse
    simp at hone hfalse
    subst hfalse
    have ht1 : t1 = none := by
      rcases t with _ | tk
      · simp [tryRefresh] at htr
        omega
      · rcases he : tk.refresh.isEmpty with _ | _ <;>
          rcases hr : w.refreshResp with _ | _ | _ <;>
          simp [tryRefresh, he, hr] at htr <;>
          first
            | (exact htr.1.symm)
            | omega
    subst ht1
    simp [authFetch, h, htr]
  · intro w t h habs
    have htr : tryRefresh w.refreshResp t = (false, t, 0) := by
      rcases habs with rfl | ⟨tk, rfl, he⟩
      · rfl
      · simp [tryRefresh, he]
    simp [authFetch, h, htr]
  · intro slot resp1 resp2 t0
    rcases slot with _ | r
    · rcases htr : tryRefresh resp1 t0 with ⟨ok, t1, rc⟩
      have hrc : rc ≤ 1 := by
        have := tryRefresh_count_le_one resp1 t0
        rw [htr] at this
        exact this
      simp [sharedRefresh, htr, hrc]
    · simp [sharedRefresh]

/-- Witness for C8's amended theorem at concrete worlds: a 200 response
passes through untouched; a failing refresh on a 401 clears the tokens and
returns the 401; a successful refresh retries once; a missing refresh token
makes no refresh call; two handlers sharing an empty slot refresh once. -/
theorem auth_fetch_behaviour_witness :
    authFetch ⟨200, none, 0⟩ (some ⟨"a", "r"⟩) = ⟨200, some ⟨"a", "r"⟩, 1, 0⟩ ∧
    (authFetch ⟨401, some none, 200⟩ (some ⟨"a", "r"⟩)).tokens = none ∧
    authFetch ⟨401, some (some ⟨"b", "c"⟩), 200⟩ (some ⟨"a", "r"⟩) =
      ⟨200, some ⟨"b", "c"⟩, 2, 1⟩ ∧
    (authFetch ⟨401, some (some ⟨"b", "c"⟩), 200⟩ none).refreshCount = 0 := by
  refine ⟨auth_fetch_behaviour.1 ⟨200, none, 0⟩ (some ⟨"a", "r"⟩) (by decide),
    (auth_fetch_behaviour.2.2.2.1 ⟨401, some none, 200⟩ (some ⟨"a", "r"⟩)
      rfl (by decide) (by decide)).1,
    ?_,
    (auth_fetch_behaviour.2.2.2.2.1 ⟨401, some (some ⟨"b", "c"⟩), 200⟩ none
      rfl (.inl rfl)).1⟩
  have h := auth_fetch_behaviour.2.2.1 ⟨401, some (some ⟨"b", "c"⟩), 200⟩
    (some ⟨"a", "r"⟩) rfl (by decide)
  simpa [tryRefresh] using h

/-- Splitting a concatenation: the lines of `a ++ b` are the lines of `a`
followed by the lines of `b` with `a`'s trailing buffer glued onto the first
of them (or onto the buffer when `b` has no complete line). -/
theorem splitNl_append (a b : List Char) :
    splitNl (a ++ b) =
      ((splitNl a).1 ++ (glueSplit (splitNl a).2 (splitNl b)).1,
        (glueSplit (splitNl a).2 (splitNl b)).2) := by
  induction a with
  | nil =>
    rcases hB : splitNl b with ⟨Bs, Bb⟩
    rcases Bs with _ | ⟨lb, restb⟩ <;> simp [splitNl, glueSplit, hB]
  | cons c a' ih =>
    rcases hA : splitNl a' with ⟨As, Ab⟩
    rcases hB : splitNl b with ⟨Bs, Bb⟩
    rw [hA, hB] at ih
    by_cases hc : c = '\n'
    · simp [splitNl, hc, ih, hA, hB, glueSplit]
    · rcases As with _ | ⟨l, restA⟩
      · rcases Bs with _ | ⟨lb, restb⟩ <;>
          simp [splitNl, hc, ih, hA, hB, glueSplit]
      · simp [splitNl, hc, ih, hA, hB, glueSplit]

/-- A chunk containing no newline splits into no complete line and itself as
the buffer. -/
theorem splitNl_no_nl (l : List Char) (h : '\n' ∉ l) :
    splitNl l = ([], l) := by
  induction l with
  | nil => rfl
  | cons c cs ih =>
    have hc : c ≠ '\n' := fun hc => h (hc ▸ List.mem_cons_self c cs)
    have hcs : '\n' ∉ cs := fun hm => h (List.mem_cons_of_mem c hm)
    simp [splitNl, hc, ih hcs]

/-- The trailing buffer left by a split never contains a newline. -/
theorem splitNl_buf_no_nl (l : List Char) : '\n' ∉ (splitNl l).2 := by
  induction l with
  | nil => simp [splitNl]
  | cons c cs ih =>
    by_cases hc : c = '\n'
    · simpa [splitNl, hc] using ih
    · rcases hS : splitNl cs with ⟨ls, buf⟩
      rw [hS] at ih
      rcases ls with _ | ⟨l0, rest⟩
      · simp [splitNl, hc, hS]
        exact ⟨fun h => hc h.symm, ih⟩
      · simpa [splitNl, hc, hS] using ih

/-- Folding the read loop over a chunk list is the same as splitting the
concatenation of the pending buffer and all chunks at once. -/
theorem foldl_feedChunk {E : Type} (parse : List Char → Option E) :
    ∀ (chunks : List (List Char)) (buf : List Char) (acc : List E),
      '\n' ∉ buf →
      chunks.foldl (feedChunk parse) (buf, acc) =
        ((splitNl (buf ++ chunks.flatten)).2,
          acc ++ ((splitNl (buf ++ chunks.flatten)).1).filterMap
            (dataLine parse)) := by
  intro chunks
  induction chunks with
  | nil =>
    intro buf acc hb
    simp [splitNl_no_nl buf hb]
  | cons c cs ih =>
    intro buf acc hb
    rcases hsplit : splitNl (buf ++ c) with ⟨ls, b1⟩
    have hb1 : '\n' ∉ b1 := by
      have := splitNl_buf_no_nl (buf ++ c)
      rw [hsplit] at this
      exact this
    have hstep : feedChunk parse (buf, acc) c =
        (b1, acc ++ ls.filterMap (dataLine parse)) := by
      simp [feedChunk, hsplit]
    have key : splitNl ((buf ++ c) ++ cs.flatten) =
        (ls ++ (splitNl (b1 ++ cs.flatten)).1,
          (splitNl (b1 ++ cs.flatten)).2) := by
      rw [splitNl_append (buf ++ c) cs.flatten, hsplit,
        splitNl_append b1 cs.flatten, splitNl_no_nl b1 hb1]
      simp
    calc (c :: cs).foldl (feedChunk parse) (buf, acc)
        = cs.foldl (feedChunk parse) (b1, acc ++ ls.filterMap (dataLine parse)) := by
          simp [List.foldl_cons, hstep]
      _ = ((splitNl (b1 ++ cs.flatten)).2,
            (acc ++ ls.filterMap (dataLine parse)) ++
              ((splitNl (b1 ++ cs.flatten)).1).filterMap (dataLine parse)) :=
          ih b1 (acc ++ ls.filterMap (dataLine parse)) hb1
      _ = ((splitNl (buf ++ (c :: cs).flatten)).2,
            acc ++ ((splitNl (buf ++ (c :: cs).flatten)).1).filterMap
              (dataLine parse)) := by
          simp [List.flatten_cons, ← List.append_assoc, key,
            List.filterMap_append]

/-- A processed line yields an event exactly when it starts with the
`data: ` marker and its remainder parses. -/
theorem dataLine_eq_some {E : Type} (parse : List Char → Option E)
    (l : List Char) (e : E) :
    dataLine parse l = some e ↔
      l.take 6 = dataMarker ∧ parse (l.drop 6) = some e := by
  unfold dataLine
  by_cases h : l.take 6 = dataMarker <;> simp [h]

/-- C9: for every byte stream consumed by `streamAgentMessage`, the event
callback is invoked exactly for the complete lines of the concatenated
stream that begin with `data: ` and whose remainder parses — so a line split
across chunk boundaries is buffered and processed with the following chunk,
a data line with malformed JSON (a `none` parse) is silently skipped, the
trailing unfinished line is never processed, and when the response body
exposes no reader the function returns with no callback invocation. -/
theorem stream_parsing_spec :
    (∀ (E : Type) (parse : List Char → Option E),
        streamAgentMessage parse none = ([] : List E)) ∧
    (∀ (E : Type) (parse : List Char → Option E) (chunks : List (List Char)),
        streamAgentMessage parse (some chunks) =
          ((splitNl chunks.flatten).1).filterMap (dataLine parse)) ∧
    (∀ (E : Type) (parse : List Char → Option E) (chunks : List (List Char))
        (e : E), e ∈ streamAgentMessage parse (some chunks) →
        ∃ l, l ∈ (splitNl chunks.flatten).1 ∧ l.take 6 = dataMarker ∧
          parse (l.drop 6) = some e) := by
  have hrun : ∀ (E : Type) (parse : List Char → Option E)
      (chunks : List (List Char)),
      streamAgentMessage parse (some chunks) =
        ((splitNl chunks.flatten).1).filterMap (dataLine parse) := by
    intro E parse chunks
    have h := foldl_feedChunk parse chunks [] [] (by simp)
    simp only [streamAgentMessage, runStream, h, List.nil_append]
  refine ⟨fun E parse => rfl, hrun, ?_⟩
  intro E parse chunks e he
  rw [hrun] at he
  rcases List.mem_filterMap.mp he with ⟨l, hl, hparse⟩
  exact ⟨l, hl, (dataLine_eq_some parse l e).mp hparse⟩

/-- Witness for C9 on a concrete two-chunk stream whose data line is split
across the chunk boundary and whose trailing line is unfinished: exactly the
complete line is delivered. -/
theorem stream_parsing_spec_witness :
    ∃ l, l ∈ (splitNl (List.flatten ["da".toList, "ta: 1\ndata".toList])).1 ∧
      l.take 6 = dataMarker ∧ some (l.drop 6) = some ['1'] :=
  stream_parsing_spec.2.2 (List Char) some
    ["da".toList, "ta: 1\ndata".toList] ['1'] (by decide)

end Axon
